import Mathlib

/-!
Shallow embedding of the recommendation engine:
itemset path (`src/processing.py`, driven by `src/fb-recommender/main.py`) and
item-based collaborative-filtering path (`src/collab_filtering/transformations.py`,
driven by `src/collab_filtering/main.py`).

Conventions of the embedding:
* product ids, user ids and order ids are `ℕ`;
* pandas cell values (interaction counts, supports, similarity scores) are `ℚ`;
* a missing cell (`NaN`) is `none : Option ℚ`;
* a Python `frozenset` of product ids is a duplicate-free `List ℕ` (its
  iteration order is a fixed but arbitrary enumeration of the set; the code
  itself relies on unspecified set-iteration order);
* a Python exception is the `Except.error` / `Option.none` branch;
* a pandas sort (`sort_values`) is `List.insertionSort` with the comparison
  the call requests (the source's sort is an unstable quicksort, so the order
  of ties is unspecified there; the embedding fixes one deterministic choice).
-/

namespace RecEngine

/-! ## Itemset path: data model (`processing.py`) -/

/-- One row of the FP-growth result set: an itemset (a `frozenset` of product
ids, modelled as a duplicate-free list) together with its support value.
The `len` column added by `process_results` is the size of the itemset and is
recovered here as `itemsets.length`. -/
structure IsRow where
  itemsets : List ℕ
  support : ℚ
deriving DecidableEq

/-- `process_results` (processing.py): adds the `len` column and keeps only
the rows whose itemset has more than 2 members
(`result_set[result_set.len > 2]`). -/
def process_results (result_set : List IsRow) : List IsRow :=
  result_set.filter (fun r => 2 < r.itemsets.length)

/-- Python `set` insertion: add an element if it is not already present.
New elements are appended, giving a fixed enumeration order. -/
def setInsert (a : ℕ) (s : List ℕ) : List ℕ :=
  if a ∈ s then s else s ++ [a]

/-- Python `set.union` of two sets (duplicate-free lists). -/
def setUnion (s t : List ℕ) : List ℕ :=
  t.foldl (fun acc a => setInsert a acc) s

/-- The subset of `processed_results` whose itemsets contain `id`, sorted by
`support` descending then `len` descending
(`sort_values(by=['support','len'], ascending=False)`). -/
def topSubset (processed_results : List IsRow) (id : ℕ) : List IsRow :=
  (processed_results.filter (fun r => id ∈ r.itemsets)).insertionSort
    (fun a b => b.support < a.support ∨ (a.support = b.support ∧ b.itemsets.length ≤ a.itemsets.length))

/-- `set().union(*top_n)`: union of the top-3 itemsets selected for `id`
(`subset.head(3)['itemsets']`). -/
def unionTop (processed_results : List IsRow) (id : ℕ) : List ℕ :=
  ((topSubset processed_results id).take 3).foldl (fun acc r => setUnion acc r.itemsets) []

/-- The per-candidate body of the loop in `generate_final_dataframe`:
build the union of the top-3 itemsets for `id` and remove `id` itself.
Python `set.remove` raises `KeyError` when the element is absent, hence the
`Option`. -/
def recsFor (processed_results : List IsRow) (id : ℕ) : Option (List ℕ) :=
  if id ∈ unionTop processed_results id
  then some ((unionTop processed_results id).erase id)
  else none

/-- `generate_final_dataframe` (processing.py): loop over `run_ids` building
`dic` (a Python dict, so duplicate ids collapse to one key), then
`from_dict` / `melt` / `dropna` / `sort_values('product_id')`, yielding one
`(product_id, recommended_product_id)` row per member of each candidate's
recommendation set.  `none` models the uncaught `KeyError` from
`unique_set.remove(id)`. -/
def generate_final_dataframe (processed_results : List IsRow) (run_ids : List ℕ) :
    Option (List (ℕ × ℕ)) :=
  match (run_ids.dedup).mapM (fun id => (recsFor processed_results id).map (fun s => (id, s))) with
  | none => none
  | some dic =>
    let rows := dic.flatMap (fun p => p.2.map (fun m => (p.1, m)))
    some (rows.insertionSort (fun a b => a.1 ≤ b.1))

/-- `fb-recommender/main.py`: `run_ids = list(set().union(*list_of_itemsets))`,
the distinct product ids occurring in the surviving itemsets. -/
def runIdsFrom (processed_results : List IsRow) : List ℕ :=
  processed_results.foldl (fun acc r => setUnion acc r.itemsets) []

/-! ## Collaborative path: data model (`collab_filtering/transformations.py`) -/

/-- The raw user-item matrix produced by `generate_user_item_matrix`:
rows are labelled by `product_id`, columns by `user_id`, and a cell is either
a count or absent (`NaN` from the pivot), modelled as `none`. -/
structure RawMatrix where
  users : List ℕ
  rows : List (ℕ × List (Option ℚ))
deriving DecidableEq

/-- The processed user-item matrix after `preprocess_user_item_matrix`:
every remaining cell holds a value (`NaN` imputed to 0). -/
structure ProcMatrix where
  users : List ℕ
  rows : List (ℕ × List ℚ)
deriving DecidableEq

/-- `(matrix.loc[product_id] <= 1).sum()`: the number of present (non-`NaN`)
cells of an item row whose value is at most 1.  In pandas `NaN <= 1` is
`False`, so absent cells are not counted. -/
def countLE1 (cells : List (Option ℚ)) : ℕ :=
  (cells.filter (fun c => match c with | some v => decide (v ≤ 1) | none => false)).length

/-- `preprocess_user_item_matrix` (transformations.py): drop item rows whose
`countLE1` is at most 2, then drop user columns that are entirely `NaN` over
the surviving rows, then impute the remaining `NaN` cells to 0. -/
def preprocess_user_item_matrix (matrix : RawMatrix) : ProcMatrix :=
  let keptRows := matrix.rows.filter (fun r => decide (¬ countLE1 r.2 ≤ 2))
  let keptIdx := (List.range matrix.users.length).filter
    (fun i => decide (¬ (keptRows.filter (fun r => r.2.getD i none = none)).length = keptRows.length))
  ⟨keptIdx.map (fun i => matrix.users.getD i 0),
   keptRows.map (fun r => (r.1, keptIdx.map (fun i => (r.2.getD i none).getD 0)))⟩

/-- An item-item similarity matrix: the item labels of the processed matrix
together with the score for each ordered pair of labels.  The score type is a
parameter: the generator produces real scores, while the ranker is exercised
on rational ones (every float is a rational). -/
structure SimMatrix (α : Type) where
  items : List ℕ
  entry : ℕ → ℕ → α

/-- Dot product of two item row-vectors (missing tail entries count as 0,
matching equal-length rows of a matrix). -/
def dotQ (x y : List ℚ) : ℚ :=
  (List.zipWith (fun a b => a * b) x y).sum

/-- Cosine similarity of two item row-vectors, as computed by
`sklearn.metrics.pairwise.cosine_similarity`. -/
noncomputable def cosineEntry (x y : List ℚ) : ℝ :=
  (dotQ x y : ℝ) / (Real.sqrt (dotQ x x) * Real.sqrt (dotQ y y))

/-- Boolean presence vector: scipy's `jaccard` metric converts the input
row to booleans (non-zero is `true`). -/
def boolVec (x : List ℚ) : List Bool :=
  x.map (fun v => decide (v ≠ 0))

/-- Number of coordinates on which two boolean vectors disagree. -/
def diffCount (u v : List Bool) : ℕ :=
  ((u.zip v).filter (fun p => p.1 != p.2)).length

/-- Number of coordinates on which at least one of two boolean vectors is
`true`. -/
def totCount (u v : List Bool) : ℕ :=
  ((u.zip v).filter (fun p => p.1 || p.2)).length

/-- Jaccard distance between two item row-vectors
(`pairwise_distances(..., metric="jaccard")`); 0 when both boolean vectors
are all-`false`. -/
def jaccardDist (x y : List ℚ) : ℚ :=
  if totCount (boolVec x) (boolVec y) = 0 then 0
  else mkRat (diffCount (boolVec x) (boolVec y)) (totCount (boolVec x) (boolVec y))

/-- Jaccard similarity: `1 - pairwise_distances(..., metric="jaccard")`. -/
def jaccardEntry (x y : List ℚ) : ℚ :=
  1 - jaccardDist x y

/-- The row-vector of item `i` in the processed matrix (the empty vector for
a label that is not present; the code would raise a `KeyError` there, but no
caller looks up a missing label). -/
def rowOf (m : ProcMatrix) (i : ℕ) : List ℚ :=
  ((m.rows.find? (fun r => r.1 = i)).map Prod.snd).getD []

/-- Failure of `generate_item_similarity_matrix`: with a metric outside
{cosine, jaccard} neither branch assigns `item_similarity_arr`, and the
function dies on the unbound local before any similarity computation.  The
spec names this error kind `UnsupportedSimilarityMetric`. -/
inductive SimilarityError where
  | UnsupportedSimilarityMetric
deriving DecidableEq

/-- `generate_item_similarity_matrix` (transformations.py): dispatch on the
metric name (the Python signature defaults `type` to `"cosine"`); any other
value fails before computing any similarity. -/
noncomputable def generate_item_similarity_matrix (normalized_matrix : ProcMatrix)
    (type : String) : Except SimilarityError (SimMatrix ℝ) :=
  if type = "cosine" then
    .ok ⟨normalized_matrix.rows.map Prod.fst,
      fun a b => cosineEntry (rowOf normalized_matrix a) (rowOf normalized_matrix b)⟩
  else if type = "jaccard" then
    .ok ⟨normalized_matrix.rows.map Prod.fst,
      fun a b => ((jaccardEntry (rowOf normalized_matrix a) (rowOf normalized_matrix b) : ℚ) : ℝ)⟩
  else
    .error .UnsupportedSimilarityMetric

/-! ## Collaborative path: ranker (`get_item_recommendations` and the batch
loop `generate_final_recommendation_df`) -/

/-- Exceptions reachable from the ranker: `idxmax` on an empty series
(`ValueError`), a column lookup for an unknown user (`KeyError`), and
`pd.concat` on an empty list of dataframes (`ValueError`). -/
inductive RecError where
  | EmptySeries
  | UserNotFound
  | NoObjectsToConcatenate
deriving DecidableEq

deriving instance DecidableEq for Except

/-- `user_item_matrix[picked_userid]`: the user's column as a series indexed
by `product_id`. -/
def columnFor (user_item_matrix : ProcMatrix) (picked_userid : ℕ) : List (ℕ × ℚ) :=
  let i := user_item_matrix.users.indexOf picked_userid
  user_item_matrix.rows.map (fun r => (r.1, r.2.getD i 0))

/-- The seed items of a user: non-zero cells of the user's column, sorted by
value descending (`sort_values(ascending=False)`), truncated to
`number_of_recommendations` (`[:number_of_recommendations]`), keeping the
product ids. -/
def seedsFor (picked_userid number_of_recommendations : ℕ)
    (user_item_matrix : ProcMatrix) : List ℕ :=
  let viewed := (columnFor user_item_matrix picked_userid).filter (fun p => decide (p.2 ≠ 0))
  ((viewed.insertionSort (fun a b => b.2 ≤ a.2)).take number_of_recommendations).map Prod.fst

/-- `series = item_similarity_matrix.loc[product]; series[series.index != product]`:
the similarity scores of all other items against `product`. -/
def seriesFor (item_similarity_matrix : SimMatrix ℚ) (product : ℕ) : List (ℕ × ℚ) :=
  (item_similarity_matrix.items.filter (fun j => decide (j ≠ product))).map
    (fun j => (j, item_similarity_matrix.entry product j))

/-- pandas `Series.idxmax` scan: keep the current best, replace it only on a
strictly greater value (so the first maximal index wins). -/
def idxmaxAux (best : ℕ × ℚ) : List (ℕ × ℚ) → ℕ
  | [] => best.1
  | p :: rest => idxmaxAux (if best.2 < p.2 then p else best) rest

/-- `Series.idxmax`: the index of the first maximal value; raises
`ValueError` on an empty series. -/
def idxmaxE : List (ℕ × ℚ) → Except RecError ℕ
  | [] => .error .EmptySeries
  | p :: rest => .ok (idxmaxAux p rest)

/-- Round half-up to the nearest integer (models Python's `round`; the exact
tie-breaking mode of float `round` is immaterial to every property below). -/
def pyRound (q : ℚ) : ℤ :=
  (2 * q.num + Int.ofNat q.den) / (2 * Int.ofNat q.den)

/-- `round(x, 5)`: round a score to 5 decimal places.  The scaling by 10^5 is
done on the numerator so that the whole function stays within `mkRat` and
integer arithmetic. -/
def roundTo5 (q : ℚ) : ℚ :=
  mkRat (pyRound (mkRat (q.num * 100000) q.den)) 100000

/-- Python dict assignment `d[k] = v`: overwrite the value in place if the
key exists (keeping its insertion position), otherwise append the new key. -/
def dictUpdate (m : List (ℕ × ℚ)) (k : ℕ) (v : ℚ) : List (ℕ × ℚ) :=
  match m with
  | [] => [(k, v)]
  | p :: rest => if p.1 = k then (k, v) :: rest else p :: dictUpdate rest k v

/-- Python dict lookup `d[k]`. -/
def lookupQ (m : List (ℕ × ℚ)) (k : ℕ) : Option ℚ :=
  match m with
  | [] => none
  | p :: rest => if p.1 = k then some p.2 else lookupQ rest k

/-- The seed loop of `get_item_recommendations`: for each seed `product` in
order, find the most similar other item (`idxmax` over the series excluding
the seed) and store its rounded score in `rec_items` under the recommended
id, overwriting any previous entry for that id; an exception aborts the
loop. -/
def recFold (item_similarity_matrix : SimMatrix ℚ) (rec_items : List (ℕ × ℚ)) :
    List ℕ → Except RecError (List (ℕ × ℚ))
  | [] => .ok rec_items
  | product :: rest =>
    match idxmaxE (seriesFor item_similarity_matrix product) with
    | .error e => .error e
    | .ok rec_product_id =>
      recFold item_similarity_matrix
        (dictUpdate rec_items rec_product_id
          (roundTo5 (item_similarity_matrix.entry product rec_product_id)))
        rest

/-- The `rec_items` dict after the whole seed loop of
`get_item_recommendations`. -/
def recItemsMap (picked_userid number_of_recommendations : ℕ)
    (user_item_matrix : ProcMatrix) (item_similarity_matrix : SimMatrix ℚ) :
    Except RecError (List (ℕ × ℚ)) :=
  recFold item_similarity_matrix []
    (seedsFor picked_userid number_of_recommendations user_item_matrix)

/-- The dict returned by `get_item_recommendations`
(`{'user_id': ..., 'type': 1, 'product_id': list(rec_items.keys())}`). -/
structure RecDict where
  user_id : ℕ
  type : ℕ
  product_id : List ℕ
deriving DecidableEq

/-- `get_item_recommendations` (transformations.py). -/
def get_item_recommendations (picked_userid number_of_recommendations : ℕ)
    (user_item_matrix : ProcMatrix) (item_similarity_matrix : SimMatrix ℚ) :
    Except RecError RecDict :=
  if picked_userid ∈ user_item_matrix.users then
    match recItemsMap picked_userid number_of_recommendations user_item_matrix
        item_similarity_matrix with
    | .error e => .error e
    | .ok rec_items => .ok ⟨picked_userid, 1, rec_items.map Prod.fst⟩
  else .error .UserNotFound

/-- One row of the final recommendation dataframe.  `pd.explode` on an empty
`product_id` list yields a single row with `NaN` (`none`) in that column. -/
structure RecRow where
  user_id : ℕ
  type : ℕ
  product_id : Option ℕ
deriving DecidableEq

/-- `pd.json_normalize(recommendation_dict).explode('product_id')`. -/
def explodeDict (d : RecDict) : List RecRow :=
  match d.product_id with
  | [] => [⟨d.user_id, d.type, none⟩]
  | ps => ps.map (fun p => ⟨d.user_id, d.type, some p⟩)

/-- The `li_dfs` accumulation loop of `generate_final_recommendation_df`:
one interim dataframe per user in column order, stopping at the first
per-user exception (`except ...: break`), which discards that user and every
later one but keeps the dataframes already accumulated. -/
def recDfs (user_item_matrix : ProcMatrix) (item_similarity_matrix : SimMatrix ℚ) :
    List ℕ → List (List RecRow)
  | [] => []
  | u :: rest =>
    match get_item_recommendations u 6 user_item_matrix item_similarity_matrix with
    | .ok d => explodeDict d :: recDfs user_item_matrix item_similarity_matrix rest
    | .error _ => []

/-- `pd.concat(li_dfs, ignore_index=True)`: raises `ValueError` when there is
no dataframe to concatenate. -/
def concatOrError (li_dfs : List (List RecRow)) : Except RecError (List RecRow) :=
  if li_dfs.isEmpty then .error .NoObjectsToConcatenate else .ok li_dfs.flatten

/-- `generate_final_recommendation_df` (transformations.py):
`NUM_RECOMMENDATIONS = 6`, iterate over `user_item_matrix.columns`, then
concatenate (`convert_dtypes` is the identity on this model). -/
def generate_final_recommendation_df (user_item_matrix : ProcMatrix)
    (item_similarity_matrix : SimMatrix ℚ) : Except RecError (List RecRow) :=
  concatOrError (recDfs user_item_matrix item_similarity_matrix user_item_matrix.users)

/-! ## Concrete instances used to exercise the theorems -/

/-- Three surviving itemsets that all contain product 1. -/
def procW4 : List IsRow :=
  [⟨[1, 2, 3], mkRat 1 2⟩, ⟨[1, 4, 5], mkRat 1 2⟩, ⟨[1, 6, 7], mkRat 1 2⟩]

/-- A single surviving itemset. -/
def prW10 : List IsRow :=
  [⟨[1, 2, 3], mkRat 1 2⟩]

/-- A result set whose only itemset has just 2 members. -/
def prW8 : List IsRow :=
  [⟨[1, 2], mkRat 1 2⟩]

/-- A processed matrix with a single item, so every recommendation series
excluding the seed is empty. -/
def uimW3 : ProcMatrix := ⟨[10, 11], [(5, [3, 2])]⟩

/-- A one-item similarity matrix matching `uimW3`. -/
def simW3 : SimMatrix ℚ := ⟨[5], fun _ _ => 0⟩

/-- A processed matrix whose user 10 has seed items 1, 2, 3 (counts 5, 4, 1). -/
def uimW5 : ProcMatrix := ⟨[10], [(1, [5]), (2, [4]), (3, [1])]⟩

/-- A similarity matrix in which seeds 1 and 2 both pick item 4 (with
different scores) and seed 3 picks item 1. -/
def simW5 : SimMatrix ℚ :=
  ⟨[1, 2, 3, 4], fun a b =>
    if a = 1 ∧ b = 4 then mkRat 9 10
    else if a = 2 ∧ b = 4 then mkRat 8 10
    else if a = 3 ∧ b = 1 then mkRat 7 10
    else mkRat 1 10⟩

/-- A processed matrix whose user 10 has two seed items. -/
def uimW7 : ProcMatrix := ⟨[10], [(1, [5]), (2, [4])]⟩

/-- A constant two-item similarity matrix matching `uimW7`. -/
def simW7 : SimMatrix ℚ := ⟨[1, 2], fun _ _ => mkRat 1 2⟩

/-- A raw matrix whose item 1 has three cells at most 1 (kept) and whose
item 2 has two such cells plus two absent cells (dropped). -/
def rawW6 : RawMatrix :=
  ⟨[10, 11, 12, 13],
   [(1, [some 1, some 1, some 1, none]),
    (2, [some 1, some 1, none, none])]⟩

/-- A tiny processed matrix for the similarity generator. -/
def mW9 : ProcMatrix := ⟨[10], [(1, [1]), (2, [1])]⟩

/-- The similarity matrix the generator returns for `mW9` with the
`"jaccard"` metric. -/
noncomputable def simMW9 : SimMatrix ℝ :=
  ⟨[1, 2], fun a b => ((jaccardEntry (rowOf mW9 a) (rowOf mW9 b) : ℚ) : ℝ)⟩

/-! ## Helper lemmas: Python-set operations -/

lemma mem_setInsert (a b : ℕ) (s : List ℕ) : b ∈ setInsert a s ↔ b = a ∨ b ∈ s := by
  unfold setInsert
  by_cases h : a ∈ s
  · rw [if_pos h]
    constructor
    · exact Or.inr
    · rintro (rfl | hb)
      · exact h
      · exact hb
  · rw [if_neg h]
    simp [List.mem_append, or_comm]

lemma nodup_setInsert (a : ℕ) (s : List ℕ) (h : s.Nodup) : (setInsert a s).Nodup := by
  unfold setInsert
  by_cases ha : a ∈ s
  · rwa [if_pos ha]
  · rw [if_neg ha]
    simp [List.nodup_append, h, ha]

lemma length_setInsert_le (a : ℕ) (s : List ℕ) : (setInsert a s).length ≤ s.length + 1 := by
  unfold setInsert
  split
  · omega
  · simp

lemma mem_setUnion (s t : List ℕ) (b : ℕ) : b ∈ setUnion s t ↔ b ∈ s ∨ b ∈ t := by
  induction t generalizing s with
  | nil => simp [setUnion]
  | cons a t ih =>
    unfold setUnion at ih ⊢
    simp only [List.foldl_cons]
    rw [ih (setInsert a s), mem_setInsert]
    simp only [List.mem_cons]
    tauto

lemma nodup_setUnion (s t : List ℕ) (h : s.Nodup) : (setUnion s t).Nodup := by
  induction t generalizing s with
  | nil => simpa [setUnion]
  | cons a t ih =>
    unfold setUnion at ih ⊢
    simp only [List.foldl_cons]
    exact ih _ (nodup_setInsert a s h)

lemma length_setUnion_le (s t : List ℕ) : (setUnion s t).length ≤ s.length + t.length := by
  induction t generalizing s with
  | nil => simp [setUnion]
  | cons a t ih =>
    unfold setUnion at ih ⊢
    simp only [List.foldl_cons]
    have h1 := ih (setInsert a s)
    have h2 := length_setInsert_le a s
    simp only [List.length_cons]
    omega

lemma length_setUnion_erase (id : ℕ) (t s : List ℕ) (hid : id ∈ s) :
    (setUnion s t).length ≤ s.length + (t.erase id).length := by
  induction t generalizing s with
  | nil => simp [setUnion]
  | cons a t ih =>
    unfold setUnion at ih ⊢
    simp only [List.foldl_cons]
    by_cases ha : a = id
    · subst ha
      rw [setInsert, if_pos hid, List.erase_cons_head]
      have h1 := ih s hid
      have h2 : (t.erase a).length ≤ t.length := (List.erase_sublist a t).length_le
      omega
    · have hid' : id ∈ setInsert a s := (mem_setInsert a id s).mpr (Or.inr hid)
      have h1 := ih (setInsert a s) hid'
      have h2 := length_setInsert_le a s
      have h3 : (a :: t).erase id = a :: t.erase id := by
        rw [List.erase_cons]
        simp [ha]
      rw [h3]
      simp only [List.length_cons]
      omega

lemma mem_foldl_setUnion (l : List IsRow) (acc : List ℕ) (b : ℕ) :
    b ∈ l.foldl (fun acc r => setUnion acc r.itemsets) acc ↔
      b ∈ acc ∨ ∃ r ∈ l, b ∈ r.itemsets := by
  induction l generalizing acc with
  | nil => simp
  | cons r l ih =>
    simp only [List.foldl_cons]
    rw [ih, mem_setUnion]
    simp only [List.mem_cons]
    constructor
    · rintro ((hb | hb) | ⟨r', hr', hb⟩)
      · exact Or.inl hb
      · exact Or.inr ⟨r, Or.inl rfl, hb⟩
      · exact Or.inr ⟨r', Or.inr hr', hb⟩
    · rintro (hb | ⟨r', (rfl | hr'), hb⟩)
      · exact Or.inl (Or.inl hb)
      · exact Or.inl (Or.inr hb)
      · exact Or.inr ⟨r', hr', hb⟩

lemma nodup_foldl_setUnion (l : List IsRow) (acc : List ℕ) (h : acc.Nodup) :
    (l.foldl (fun acc r => setUnion acc r.itemsets) acc).Nodup := by
  induction l generalizing acc with
  | nil => simpa
  | cons r l ih =>
    simp only [List.foldl_cons]
    exact ih _ (nodup_setUnion _ _ h)

lemma length_foldl_setUnion (id L : ℕ) (l : List IsRow) :
    ∀ acc : List ℕ, id ∈ acc →
    (∀ r ∈ l, id ∈ r.itemsets ∧ r.itemsets.length ≤ L) →
    (l.foldl (fun acc r => setUnion acc r.itemsets) acc).length ≤
      acc.length + l.length * (L - 1) := by
  induction l with
  | nil => intro acc _ _; simp
  | cons r l ih =>
    intro acc hid hall
    simp only [List.foldl_cons]
    obtain ⟨hidr, hlenr⟩ := hall r (by simp)
    have h1 := length_setUnion_erase id r.itemsets acc hid
    have h2 : (r.itemsets.erase id).length = r.itemsets.length - 1 :=
      List.length_erase_of_mem hidr
    have h3 : id ∈ setUnion acc r.itemsets := (mem_setUnion _ _ _).mpr (Or.inl hid)
    have h4 := ih (setUnion acc r.itemsets) h3 (fun r' hr' => hall r' (by simp [hr']))
    have h5 : 1 ≤ r.itemsets.length := List.length_pos_of_mem hidr
    rw [List.length_cons, Nat.succ_mul]
    omega

/-! ## Helper lemmas: the itemset path -/

lemma mem_take3_topSubset (processed_results : List IsRow) (id : ℕ) (r : IsRow)
    (hr : r ∈ (topSubset processed_results id).take 3) :
    r ∈ processed_results ∧ id ∈ r.itemsets := by
  have hr1 : r ∈ topSubset processed_results id := List.mem_of_mem_take hr
  have hr2 : r ∈ processed_results.filter (fun r => id ∈ r.itemsets) :=
    ((List.perm_insertionSort _ _).mem_iff).mp hr1
  rw [List.mem_filter] at hr2
  exact ⟨hr2.1, by simpa using hr2.2⟩

lemma nodup_unionTop (processed_results : List IsRow) (id : ℕ) :
    (unionTop processed_results id).Nodup :=
  nodup_foldl_setUnion _ _ List.nodup_nil

lemma mem_unionTop_self (processed_results : List IsRow) (id : ℕ)
    (h : ∃ r ∈ processed_results, id ∈ r.itemsets) :
    id ∈ unionTop processed_results id := by
  obtain ⟨r, hr, hid⟩ := h
  have hfil : r ∈ processed_results.filter (fun r => id ∈ r.itemsets) :=
    List.mem_filter.mpr ⟨hr, by simpa⟩
  cases htake : (topSubset processed_results id).take 3 with
  | nil =>
    exfalso
    cases hts : topSubset processed_results id with
    | nil =>
      have hp := List.perm_insertionSort
        (fun a b => b.support < a.support ∨
          (a.support = b.support ∧ b.itemsets.length ≤ a.itemsets.length))
        (processed_results.filter (fun r => id ∈ r.itemsets))
      rw [show (processed_results.filter (fun r => id ∈ r.itemsets)).insertionSort
            (fun a b => b.support < a.support ∨
              (a.support = b.support ∧ b.itemsets.length ≤ a.itemsets.length)) =
              topSubset processed_results id from rfl, hts] at hp
      rw [← hp.nil_eq] at hfil
      exact absurd hfil (List.not_mem_nil r)
    | cons x xs =>
      rw [hts] at htake
      simp [List.take] at htake
  | cons r0 rest =>
    have hr0 : r0 ∈ (topSubset processed_results id).take 3 := by rw [htake]; simp
    have hr0' : id ∈ r0.itemsets := (mem_take3_topSubset _ _ _ hr0).2
    unfold unionTop
    rw [htake, mem_foldl_setUnion]
    exact Or.inr ⟨r0, by simp, hr0'⟩

lemma unionTop_erase_length (processed_results : List IsRow) (id L : ℕ)
    (hlen : ∀ r ∈ processed_results, r.itemsets.length ≤ L)
    (hid : id ∈ unionTop processed_results id) :
    ((unionTop processed_results id).erase id).length ≤ 3 * (L - 1) := by
  have hsel : ∀ r ∈ (topSubset processed_results id).take 3,
      id ∈ r.itemsets ∧ r.itemsets.length ≤ L := by
    intro r hr
    have h := mem_take3_topSubset _ _ _ hr
    exact ⟨h.2, hlen r h.1⟩
  have htk : ((topSubset processed_results id).take 3).length ≤ 3 := by
    simp [List.length_take]
  unfold unionTop at hid ⊢
  cases htake : (topSubset processed_results id).take 3 with
  | nil =>
    rw [htake] at hid
    simp at hid
  | cons r0 rest =>
    rw [htake] at hid hsel htk
    simp only [List.foldl_cons] at hid ⊢
    obtain ⟨hidr0, hlenr0⟩ := hsel r0 (by simp)
    have hidu : id ∈ setUnion [] r0.itemsets := (mem_setUnion _ _ _).mpr (Or.inr hidr0)
    have h1 : (setUnion [] r0.itemsets).length ≤ r0.itemsets.length := by
      have := length_setUnion_le [] r0.itemsets
      simpa using this
    have h4 := length_foldl_setUnion id L rest (setUnion [] r0.itemsets) hidu
      (fun r' h' => hsel r' (by simp [h']))
    have h5 : 1 ≤ r0.itemsets.length := List.length_pos_of_mem hidr0
    have h6 := List.length_erase_of_mem hid
    have h7 : rest.length ≤ 2 := by
      simp only [List.length_cons] at htk
      omega
    have h8 : rest.length * (L - 1) ≤ 2 * (L - 1) :=
      Nat.mul_le_mul_right (L - 1) h7
    omega

lemma recsFor_eq_some (processed_results : List IsRow) (id : ℕ) (s : List ℕ)
    (h : recsFor processed_results id = some s) :
    id ∈ unionTop processed_results id ∧ s = (unionTop processed_results id).erase id := by
  unfold recsFor at h
  split_ifs at h with hid
  · exact ⟨hid, (Option.some.inj h).symm⟩

lemma recsFor_isSome (processed_results : List IsRow) (id : ℕ)
    (h : ∃ r ∈ processed_results, id ∈ r.itemsets) :
    (recsFor processed_results id).isSome := by
  unfold recsFor
  rw [if_pos (mem_unionTop_self _ _ h)]
  rfl

lemma mapM_pair_eq_some {f : ℕ → Option (List ℕ)} :
    ∀ {l : List ℕ} {ys : List (ℕ × List ℕ)},
      l.mapM (fun id => (f id).map (fun s => (id, s))) = some ys →
      ys.map Prod.fst = l ∧ ∀ p ∈ ys, f p.1 = some p.2 := by
  intro l
  induction l with
  | nil =>
    intro ys h
    simp only [List.mapM_nil, pure, Option.some.injEq] at h
    subst h
    simp
  | cons a l ih =>
    intro ys h
    rw [List.mapM_cons] at h
    cases hfa : f a with
    | none => rw [hfa] at h; simp at h
    | some s =>
      rw [hfa] at h
      cases hml : l.mapM (fun id => (f id).map (fun s => (id, s))) with
      | none => rw [hml] at h; simp at h
      | some ys' =>
        rw [hml] at h
        have h2 : some ((a, s) :: ys') = some ys := h
        have h3 := Option.some.inj h2
        subst h3
        obtain ⟨hfst, hall⟩ := ih hml
        refine ⟨by simp [hfst], ?_⟩
        intro p hp
        rcases List.mem_cons.mp hp with rfl | hp'
        · simpa using hfa
        · exact hall p hp'

lemma mapM_pair_isSome {f : ℕ → Option (List ℕ)} :
    ∀ {l : List ℕ}, (∀ x ∈ l, (f x).isSome) →
      (l.mapM (fun id => (f id).map (fun s => (id, s)))).isSome := by
  intro l
  induction l with
  | nil => intro _; simp [List.mapM_nil]; rfl
  | cons a l ih =>
    intro h
    rw [List.mapM_cons]
    obtain ⟨s, hs⟩ := Option.isSome_iff_exists.mp (h a (by simp))
    obtain ⟨ys, hys⟩ := Option.isSome_iff_exists.mp (ih (fun x hx => h x (by simp [hx])))
    rw [hs, hys]
    rfl

lemma generate_final_dataframe_inv (processed_results : List IsRow) (run_ids : List ℕ)
    (out : List (ℕ × ℕ)) (hout : generate_final_dataframe processed_results run_ids = some out) :
    ∃ dic : List (ℕ × List ℕ),
      (run_ids.dedup).mapM
        (fun id => (recsFor processed_results id).map (fun s => (id, s))) = some dic ∧
      out = (dic.flatMap (fun p => p.2.map (fun m => (p.1, m)))).insertionSort
        (fun a b => a.1 ≤ b.1) := by
  unfold generate_final_dataframe at hout
  cases hm : (run_ids.dedup).mapM
      (fun id => (recsFor processed_results id).map (fun s => (id, s))) with
  | none => rw [hm] at hout; exact absurd hout (by simp)
  | some dic =>
    rw [hm] at hout
    exact ⟨dic, rfl, (Option.some.inj hout).symm⟩

lemma countRows_flatMap (dic : List (ℕ × List ℕ)) (id B : ℕ)
    (hnd : (dic.map Prod.fst).Nodup)
    (hB : ∀ p ∈ dic, p.1 = id → p.2.length ≤ B) :
    ((dic.flatMap (fun p => p.2.map (fun m => (p.1, m)))).filter
      (fun q => q.1 = id)).length ≤ B := by
  induction dic with
  | nil => simp
  | cons p rest ih =>
    simp only [List.flatMap_cons, List.filter_append, List.length_append]
    have hndr : (rest.map Prod.fst).Nodup := (List.nodup_cons.mp (by simpa using hnd)).2
    by_cases hp : p.1 = id
    · have h1 : ((p.2.map (fun m => (p.1, m))).filter (fun q => decide (q.1 = id))).length
          = p.2.length := by
        rw [List.filter_eq_self.mpr]
        · rw [List.length_map]
        · intro q hq
          rcases List.mem_map.mp hq with ⟨m, _, rfl⟩
          simpa using hp
      have hid : id ∉ rest.map Prod.fst := by
        rw [← hp]
        exact (List.nodup_cons.mp (by simpa using hnd)).1
      have h2 : ((rest.flatMap (fun p => p.2.map (fun m => (p.1, m)))).filter
          (fun q => decide (q.1 = id))).length = 0 := by
        rw [List.length_eq_zero, List.filter_eq_nil_iff]
        intro q hq
        rcases List.mem_flatMap.mp hq with ⟨p', hp', hq'⟩
        rcases List.mem_map.mp hq' with ⟨m, _, rfl⟩
        simp only [decide_eq_true_eq]
        intro hqid
        exact hid (hqid ▸ List.mem_map_of_mem Prod.fst hp')
      have hBp := hB p (by simp) hp
      omega
    · have h1 : ((p.2.map (fun m => (p.1, m))).filter (fun q => decide (q.1 = id))).length
          = 0 := by
        rw [List.length_eq_zero, List.filter_eq_nil_iff]
        intro q hq
        rcases List.mem_map.mp hq with ⟨m, _, rfl⟩
        simpa using hp
      have h2 := ih hndr (fun p' h' h'' => hB p' (by simp [h']) h'')
      omega

lemma mem_generate_final_dataframe (processed_results : List IsRow) (run_ids : List ℕ)
    (out : List (ℕ × ℕ)) (hout : generate_final_dataframe processed_results run_ids = some out) :
    ∀ p ∈ out, ∃ s, recsFor processed_results p.1 = some s ∧ p.2 ∈ s := by
  obtain ⟨dic, hdic, rfl⟩ := generate_final_dataframe_inv _ _ _ hout
  intro p hp
  have hp' : p ∈ dic.flatMap (fun p => p.2.map (fun m => (p.1, m))) :=
    ((List.perm_insertionSort _ _).mem_iff).mp hp
  rcases List.mem_flatMap.mp hp' with ⟨q, hq, hpq⟩
  rcases List.mem_map.mp hpq with ⟨m, hm, rfl⟩
  exact ⟨q.2, (mapM_pair_eq_some hdic).2 q hq, hm⟩

/-! ## Claims about the itemset path -/

/-- C8: `process_results` keeps exactly the itemsets of length strictly
greater than 2; but when no itemset survives it does NOT fail — it returns
the empty result set and the pipeline proceeds (there is no
`InsufficientSupportItemsets` error in the code), producing an empty final
dataframe.  This is the amended form of the claim. -/
theorem C8_length_filter :
    (∀ (result_set : List IsRow) (r : IsRow),
      r ∈ process_results result_set ↔ r ∈ result_set ∧ 2 < r.itemsets.length) ∧
    (∀ result_set : List IsRow, (∀ r ∈ result_set, r.itemsets.length ≤ 2) →
      process_results result_set = [] ∧
      generate_final_dataframe (process_results result_set)
        (runIdsFrom (process_results result_set)) = some []) := by
  constructor
  · intro result_set r
    simp [process_results, List.mem_filter]
  · intro result_set h
    have hnil : process_results result_set = [] := by
      rw [process_results, List.filter_eq_nil_iff]
      intro r hr
      simp only [decide_eq_true_eq, not_lt]
      exact h r hr
    refine ⟨hnil, ?_⟩
    rw [hnil]
    rfl

/-- C8 counterexample: a run whose only itemset has 2 members.
`process_results` returns an ordinary empty result set (no exception), and
`generate_final_dataframe` then succeeds on the empty candidate list — the
run proceeds instead of failing with `InsufficientSupportItemsets`. -/
theorem C8_counterexample :
    process_results prW8 = [] ∧
    generate_final_dataframe (process_results prW8) (runIdsFrom (process_results prW8)) =
      some [] := by
  decide

/-- C8 witness for the amended claim, at a concrete result set. -/
theorem C8_length_filter_witness :
    ((⟨[1, 2], mkRat 1 2⟩ : IsRow) ∈ process_results prW8 ↔
      (⟨[1, 2], mkRat 1 2⟩ : IsRow) ∈ prW8 ∧
        2 < (⟨[1, 2], mkRat 1 2⟩ : IsRow).itemsets.length) ∧
    process_results prW8 = [] ∧
    generate_final_dataframe (process_results prW8) (runIdsFrom (process_results prW8)) =
      some [] :=
  ⟨C8_length_filter.1 prW8 ⟨[1, 2], mkRat 1 2⟩, C8_length_filter.2 prW8 (by decide)⟩

/-- C10: the self-exclusion `unique_set.remove(id)` never fails when, as in
`fb-recommender/main.py`, the candidate ids are taken from the union of the
surviving itemsets: every such id lies in some itemset, hence in the union
of its top-3 selected itemsets, so the removal is defined and the whole
final-dataframe construction returns a value. -/
theorem C10_self_removal_safe :
    (∀ (processed_results : List IsRow) (id : ℕ),
      id ∈ runIdsFrom processed_results → ∃ r ∈ processed_results, id ∈ r.itemsets) ∧
    (∀ (processed_results : List IsRow) (run_ids : List ℕ),
      (∀ id ∈ run_ids, ∃ r ∈ processed_results, id ∈ r.itemsets) →
      (generate_final_dataframe processed_results run_ids).isSome) := by
  constructor
  · intro pr id h
    unfold runIdsFrom at h
    rcases (mem_foldl_setUnion pr [] id).mp h with h' | h'
    · exact absurd h' (List.not_mem_nil id)
    · exact h'
  · intro pr run_ids h
    have hsome : ((run_ids.dedup).mapM
        (fun id => (recsFor pr id).map (fun s => (id, s)))).isSome :=
      mapM_pair_isSome (fun id hid =>
        recsFor_isSome pr id (h id (List.mem_dedup.mp hid)))
    obtain ⟨dic, hdic⟩ := Option.isSome_iff_exists.mp hsome
    unfold generate_final_dataframe
    rw [hdic]
    rfl

/-- C10 witness at a concrete surviving-itemset list. -/
theorem C10_self_removal_safe_witness :
    (∃ r ∈ prW10, 1 ∈ r.itemsets) ∧ (generate_final_dataframe prW10 [1, 2, 3]).isSome :=
  ⟨C10_self_removal_safe.1 prW10 1 (by decide),
   C10_self_removal_safe.2 prW10 [1, 2, 3] (by decide)⟩

/-- C4 counterexample: three surviving itemsets of length 3 that all contain
product 1.  The union of the top-3 itemsets for candidate 1, minus the
candidate, has 6 members, so the itemset path emits 6 recommendation records
for that candidate — more than `top_itemsets_per_candidate = 3`. -/
theorem C4_counterexample :
    generate_final_dataframe procW4 [1] =
      some [(1, 2), (1, 3), (1, 4), (1, 5), (1, 6), (1, 7)] ∧
    ¬ (((generate_final_dataframe procW4 [1]).getD []).filter
        (fun p => p.1 = 1)).length ≤ 3 := by
  decide

/-- C4 (amended): per candidate the itemset path emits at most
`top_itemsets_per_candidate × (max itemset length − 1)` records: when every
surviving itemset has at most `L` members, the union of a candidate's top-3
selected itemsets minus the candidate has at most `3 * (L − 1)` members.
The bound `top_itemsets_per_candidate` itself is exceeded (see the
counterexample). -/
theorem C4_itemset_union_bound (processed_results : List IsRow) (run_ids : List ℕ)
    (out : List (ℕ × ℕ)) (L id : ℕ)
    (hout : generate_final_dataframe processed_results run_ids = some out)
    (hlen : ∀ r ∈ processed_results, r.itemsets.length ≤ L) :
    (out.filter (fun p => p.1 = id)).length ≤ 3 * (L - 1) := by
  obtain ⟨dic, hdic, rfl⟩ := generate_final_dataframe_inv _ _ _ hout
  have hperm := (List.perm_insertionSort (fun a b => a.1 ≤ b.1)
    (dic.flatMap (fun p => p.2.map (fun m => (p.1, m))))).filter
      (fun q => decide (q.1 = id))
  rw [hperm.length_eq]
  obtain ⟨hfst, hall⟩ := mapM_pair_eq_some hdic
  have hnd : (dic.map Prod.fst).Nodup := by
    rw [hfst]
    exact List.nodup_dedup run_ids
  apply countRows_flatMap dic id (3 * (L - 1)) hnd
  intro p hp hpid
  have h := recsFor_eq_some _ _ _ (hall p hp)
  rw [h.2]
  have := unionTop_erase_length processed_results p.1 L hlen h.1
  exact this

/-- C4 witness for the amended bound, with `L = 3` at the counterexample
input: 6 records, and `6 ≤ 3 * (3 - 1)`. -/
theorem C4_itemset_union_bound_witness :
    generate_final_dataframe procW4 [1] =
      some [(1, 2), (1, 3), (1, 4), (1, 5), (1, 6), (1, 7)] ∧
    ([(1, 2), (1, 3), (1, 4), (1, 5), (1, 6), (1, 7)].filter
      (fun p : ℕ × ℕ => p.1 = 1)).length ≤ 3 * (3 - 1) :=
  ⟨by decide,
   C4_itemset_union_bound procW4 [1] _ 3 1 (by decide) (by decide)⟩

/-! ## Helper lemmas: the pairwise ranker -/

lemma lookupQ_nil (j : ℕ) : lookupQ [] j = none := rfl

lemma lookupQ_cons (p : ℕ × ℚ) (rest : List (ℕ × ℚ)) (j : ℕ) :
    lookupQ (p :: rest) j = if p.1 = j then some p.2 else lookupQ rest j := rfl

lemma dictUpdate_nil (k : ℕ) (v : ℚ) : dictUpdate [] k v = [(k, v)] := rfl

lemma dictUpdate_cons (p : ℕ × ℚ) (rest : List (ℕ × ℚ)) (k : ℕ) (v : ℚ) :
    dictUpdate (p :: rest) k v =
      if p.1 = k then (k, v) :: rest else p :: dictUpdate rest k v := rfl

lemma lookupQ_dictUpdate (m : List (ℕ × ℚ)) (k : ℕ) (v : ℚ) (j : ℕ) :
    lookupQ (dictUpdate m k v) j = if j = k then some v else lookupQ m j := by
  induction m with
  | nil =>
    rw [dictUpdate_nil, lookupQ_cons, lookupQ_nil]
    by_cases hjk : j = k
    · subst hjk; simp
    · rw [if_neg (fun h => hjk h.symm), if_neg hjk]
  | cons p rest ih =>
    rw [dictUpdate_cons]
    by_cases hpk : p.1 = k
    · rw [if_pos hpk, lookupQ_cons, lookupQ_cons]
      by_cases hjk : j = k
      · subst hjk; simp
      · have h1 : ¬ ((k, v) : ℕ × ℚ).1 = j := fun h => hjk h.symm
        have h2 : ¬ p.1 = j := by rw [hpk]; exact fun h => hjk h.symm
        rw [if_neg h1, if_neg hjk, if_neg h2]
    · rw [if_neg hpk, lookupQ_cons, lookupQ_cons, ih]
      by_cases hjp : p.1 = j
      · have hjk : ¬ j = k := fun h => hpk (by rw [hjp, h])
        rw [if_pos hjp, if_neg hjk, if_pos hjp]
      · rw [if_neg hjp]
        by_cases hjk : j = k
        · rw [if_pos hjk, if_pos hjk]
        · rw [if_neg hjk, if_neg hjk, if_neg hjp]

lemma keys_dictUpdate (m : List (ℕ × ℚ)) (k : ℕ) (v : ℚ) :
    (dictUpdate m k v).map Prod.fst =
      if k ∈ m.map Prod.fst then m.map Prod.fst else m.map Prod.fst ++ [k] := by
  induction m with
  | nil => simp [dictUpdate_nil]
  | cons p rest ih =>
    rw [dictUpdate_cons]
    by_cases hpk : p.1 = k
    · rw [if_pos hpk, if_pos (by simp [← hpk])]
      simp [hpk]
    · rw [if_neg hpk]
      simp only [List.map_cons]
      rw [ih]
      by_cases hk : k ∈ rest.map Prod.fst
      · rw [if_pos hk, if_pos (by simp [hk])]
      · have hnotin : ¬ k ∈ p.1 :: rest.map Prod.fst := by
          simp only [List.mem_cons, not_or]
          exact ⟨fun h => hpk h.symm, hk⟩
        rw [if_neg hk, if_neg hnotin]
        simp

lemma mem_keys_dictUpdate (m : List (ℕ × ℚ)) (k : ℕ) (v : ℚ) (j : ℕ) :
    j ∈ (dictUpdate m k v).map Prod.fst ↔ j = k ∨ j ∈ m.map Prod.fst := by
  rw [keys_dictUpdate]
  split_ifs with h
  · constructor
    · exact Or.inr
    · rintro (rfl | hj)
      · exact h
      · exact hj
  · simp [or_comm]

lemma length_dictUpdate (m : List (ℕ × ℚ)) (k : ℕ) (v : ℚ) :
    (dictUpdate m k v).length ≤ m.length + 1 := by
  induction m with
  | nil => simp [dictUpdate_nil]
  | cons p rest ih =>
    rw [dictUpdate_cons]
    split
    · simp
    · simp only [List.length_cons]
      omega

lemma nodup_keys_dictUpdate (m : List (ℕ × ℚ)) (k : ℕ) (v : ℚ)
    (h : (m.map Prod.fst).Nodup) : ((dictUpdate m k v).map Prod.fst).Nodup := by
  rw [keys_dictUpdate]
  split_ifs with hk
  · exact h
  · simp [List.nodup_append, h, hk]

lemma lookupQ_mem_keys (m : List (ℕ × ℚ)) (j : ℕ) (v : ℚ) (h : lookupQ m j = some v) :
    j ∈ m.map Prod.fst := by
  induction m with
  | nil => rw [lookupQ_nil] at h; exact absurd h (by simp)
  | cons p rest ih =>
    rw [lookupQ_cons] at h
    split_ifs at h with hpj
    · simp [← hpj]
    · simp [ih h]

lemma idxmaxAux_eq_or_mem (l : List (ℕ × ℚ)) : ∀ best : ℕ × ℚ,
    idxmaxAux best l = best.1 ∨ idxmaxAux best l ∈ l.map Prod.fst := by
  induction l with
  | nil => intro best; left; rfl
  | cons p rest ih =>
    intro best
    have e : idxmaxAux best (p :: rest) =
        idxmaxAux (if best.2 < p.2 then p else best) rest := rfl
    rw [e]
    by_cases hc : best.2 < p.2
    · rw [if_pos hc]
      rcases ih p with h | h
      · right; rw [h]; simp
      · right; simp only [List.map_cons, List.mem_cons]; exact Or.inr h
    · rw [if_neg hc]
      rcases ih best with h | h
      · left; exact h
      · right; simp only [List.map_cons, List.mem_cons]; exact Or.inr h

lemma idxmaxE_ok_mem (l : List (ℕ × ℚ)) (r : ℕ) (h : idxmaxE l = .ok r) :
    r ∈ l.map Prod.fst := by
  cases l with
  | nil => exact absurd h (by simp [idxmaxE])
  | cons p rest =>
    have e : idxmaxE (p :: rest) = .ok (idxmaxAux p rest) := rfl
    rw [e] at h
    have hr := Except.ok.inj h
    rcases idxmaxAux_eq_or_mem rest p with h' | h'
    · rw [← hr, h']; simp
    · rw [← hr]; simp only [List.map_cons, List.mem_cons]; exact Or.inr h'

lemma idxmaxE_seriesFor (sim : SimMatrix ℚ) (product r : ℕ)
    (h : idxmaxE (seriesFor sim product) = .ok r) :
    r ≠ product ∧ r ∈ sim.items := by
  have hmem := idxmaxE_ok_mem _ _ h
  unfold seriesFor at hmem
  rw [List.map_map] at hmem
  have hmem' : r ∈ sim.items.filter (fun j => decide (j ≠ product)) := by
    simpa using hmem
  have h2 := List.mem_filter.mp hmem'
  exact ⟨by simpa using h2.2, h2.1⟩

lemma recFold_nil (sim : SimMatrix ℚ) (acc : List (ℕ × ℚ)) :
    recFold sim acc [] = .ok acc := rfl

lemma recFold_cons_ok (sim : SimMatrix ℚ) (acc : List (ℕ × ℚ)) (s : ℕ) (rest : List ℕ)
    (rid : ℕ) (hx : idxmaxE (seriesFor sim s) = .ok rid) :
    recFold sim acc (s :: rest) =
      recFold sim (dictUpdate acc rid (roundTo5 (sim.entry s rid))) rest := by
  have e : recFold sim acc (s :: rest) =
      match idxmaxE (seriesFor sim s) with
      | .error e => .error e
      | .ok rid =>
        recFold sim (dictUpdate acc rid (roundTo5 (sim.entry s rid))) rest := rfl
  rw [e, hx]

lemma recFold_cons_error (sim : SimMatrix ℚ) (acc : List (ℕ × ℚ)) (s : ℕ) (rest : List ℕ)
    (e0 : RecError) (hx : idxmaxE (seriesFor sim s) = .error e0) :
    recFold sim acc (s :: rest) = .error e0 := by
  have e : recFold sim acc (s :: rest) =
      match idxmaxE (seriesFor sim s) with
      | .error e => .error e
      | .ok rid =>
        recFold sim (dictUpdate acc rid (roundTo5 (sim.entry s rid))) rest := rfl
  rw [e, hx]

lemma recFold_ok_length (sim : SimMatrix ℚ) : ∀ (seeds : List ℕ) (acc m : List (ℕ × ℚ)),
    recFold sim acc seeds = .ok m → m.length ≤ acc.length + seeds.length := by
  intro seeds
  induction seeds with
  | nil =>
    intro acc m h
    rw [recFold_nil] at h
    rw [← Except.ok.inj h]
    simp
  | cons s rest ih =>
    intro acc m h
    cases hx : idxmaxE (seriesFor sim s) with
    | error e0 =>
      rw [recFold_cons_error sim acc s rest e0 hx] at h
      exact absurd h (by simp)
    | ok rid =>
      rw [recFold_cons_ok sim acc s rest rid hx] at h
      have h1 := ih _ _ h
      have h2 := length_dictUpdate acc rid (roundTo5 (sim.entry s rid))
      simp only [List.length_cons]
      omega

lemma recFold_keys_nodup (sim : SimMatrix ℚ) : ∀ (seeds : List ℕ) (acc m : List (ℕ × ℚ)),
    recFold sim acc seeds = .ok m → (acc.map Prod.fst).Nodup →
    (m.map Prod.fst).Nodup := by
  intro seeds
  induction seeds with
  | nil =>
    intro acc m h hnd
    rw [recFold_nil] at h
    rw [← Except.ok.inj h]
    exact hnd
  | cons s rest ih =>
    intro acc m h hnd
    cases hx : idxmaxE (seriesFor sim s) with
    | error e0 =>
      rw [recFold_cons_error sim acc s rest e0 hx] at h
      exact absurd h (by simp)
    | ok rid =>
      rw [recFold_cons_ok sim acc s rest rid hx] at h
      exact ih _ _ h (nodup_keys_dictUpdate _ _ _ hnd)

lemma recFold_keys_origin (sim : SimMatrix ℚ) : ∀ (seeds : List ℕ) (acc m : List (ℕ × ℚ)),
    recFold sim acc seeds = .ok m → ∀ k ∈ m.map Prod.fst,
      k ∈ acc.map Prod.fst ∨ ∃ s ∈ seeds, idxmaxE (seriesFor sim s) = .ok k := by
  intro seeds
  induction seeds with
  | nil =>
    intro acc m h k hk
    rw [recFold_nil] at h
    rw [← Except.ok.inj h] at hk
    exact Or.inl hk
  | cons s rest ih =>
    intro acc m h k hk
    cases hx : idxmaxE (seriesFor sim s) with
    | error e0 =>
      rw [recFold_cons_error sim acc s rest e0 hx] at h
      exact absurd h (by simp)
    | ok rid =>
      rw [recFold_cons_ok sim acc s rest rid hx] at h
      rcases ih _ _ h k hk with h' | ⟨s', hs', hx'⟩
      · rcases (mem_keys_dictUpdate _ _ _ _).mp h' with rfl | h''
        · exact Or.inr ⟨s, by simp, hx⟩
        · exact Or.inl h''
      · exact Or.inr ⟨s', by simp [hs'], hx'⟩

lemma recFold_lookup (sim : SimMatrix ℚ) (r : ℕ) : ∀ (seeds : List ℕ) (acc m : List (ℕ × ℚ)),
    recFold sim acc seeds = .ok m →
    lookupQ m r =
      match (seeds.filter
          (fun s => decide (idxmaxE (seriesFor sim s) = .ok r))).getLast? with
      | some s => some (roundTo5 (sim.entry s r))
      | none => lookupQ acc r := by
  intro seeds
  induction seeds with
  | nil =>
    intro acc m h
    rw [recFold_nil] at h
    rw [← Except.ok.inj h]
    rfl
  | cons s rest ih =>
    intro acc m h
    cases hx : idxmaxE (seriesFor sim s) with
    | error e0 =>
      rw [recFold_cons_error sim acc s rest e0 hx] at h
      exact absurd h (by simp)
    | ok rid =>
      rw [recFold_cons_ok sim acc s rest rid hx] at h
      have h1 := ih _ _ h
      rw [h1, List.filter_cons]
      by_cases hrid : rid = r
      · subst hrid
        rw [if_pos (by simp [hx])]
        cases hfl : rest.filter (fun s => decide (idxmaxE (seriesFor sim s) = .ok rid)) with
        | nil =>
          show lookupQ (dictUpdate acc rid (roundTo5 (sim.entry s rid))) rid =
            some (roundTo5 (sim.entry s rid))
          rw [lookupQ_dictUpdate, if_pos rfl]
        | cons q qs =>
          rw [List.getLast?_cons_cons]
          cases hql : (q :: qs).getLast? with
          | none => simp at hql
          | some s0 => rfl
      · rw [if_neg (by simp [hx, hrid])]
        cases hfl : rest.filter (fun s => decide (idxmaxE (seriesFor sim s) = .ok r)) with
        | nil =>
          show lookupQ (dictUpdate acc rid (roundTo5 (sim.entry s rid))) r = lookupQ acc r
          rw [lookupQ_dictUpdate, if_neg (fun h => hrid h.symm)]
        | cons q qs =>
          cases hql : (q :: qs).getLast? with
          | none => simp at hql
          | some s0 => rfl

lemma get_item_recommendations_ok (picked_userid N : ℕ) (uim : ProcMatrix)
    (sim : SimMatrix ℚ) (d : RecDict)
    (h : get_item_recommendations picked_userid N uim sim = .ok d) :
    picked_userid ∈ uim.users ∧ d.user_id = picked_userid ∧
    ∃ m, recItemsMap picked_userid N uim sim = .ok m ∧ d.product_id = m.map Prod.fst := by
  unfold get_item_recommendations at h
  by_cases hu : picked_userid ∈ uim.users
  · rw [if_pos hu] at h
    cases hm : recItemsMap picked_userid N uim sim with
    | error e => rw [hm] at h; exact absurd h (by simp)
    | ok m =>
      rw [hm] at h
      have hd := Except.ok.inj h
      exact ⟨hu, by rw [← hd], m, rfl, by rw [← hd]⟩
  · rw [if_neg hu] at h
    exact absurd h (by simp)

lemma seedsFor_length_le (picked_userid N : ℕ) (uim : ProcMatrix) :
    (seedsFor picked_userid N uim).length ≤ N := by
  unfold seedsFor
  rw [List.length_map, List.length_take]
  omega

lemma get_ok_product_length (picked_userid N : ℕ) (uim : ProcMatrix)
    (sim : SimMatrix ℚ) (d : RecDict)
    (h : get_item_recommendations picked_userid N uim sim = .ok d) :
    d.product_id.length ≤ N := by
  obtain ⟨-, -, m, hm, hd⟩ := get_item_recommendations_ok _ _ _ _ _ h
  unfold recItemsMap at hm
  have h1 := recFold_ok_length sim _ _ _ hm
  have h2 := seedsFor_length_le picked_userid N uim
  rw [hd, List.length_map]
  simp only [List.length_nil] at h1
  omega

lemma mem_explodeDict (d : RecDict) (row : RecRow) (h : row ∈ explodeDict d) :
    row.user_id = d.user_id := by
  unfold explodeDict at h
  cases hps : d.product_id with
  | nil =>
    rw [hps] at h
    have h' : row ∈ [(⟨d.user_id, d.type, none⟩ : RecRow)] := h
    rw [List.mem_singleton] at h'
    rw [h']
  | cons p ps =>
    rw [hps] at h
    have h' : row ∈ (p :: ps).map (fun p => (⟨d.user_id, d.type, some p⟩ : RecRow)) := h
    rcases List.mem_map.mp h' with ⟨q, _, rfl⟩
    rfl

lemma explodeDict_length_le (d : RecDict) (n : ℕ) (h : d.product_id.length ≤ n)
    (hn : 1 ≤ n) : (explodeDict d).length ≤ n := by
  unfold explodeDict
  cases hps : d.product_id with
  | nil => simpa
  | cons p ps =>
    rw [List.length_map]
    rw [hps] at h
    exact h

lemma recDfs_cons_ok (uim : ProcMatrix) (sim : SimMatrix ℚ) (u : ℕ) (rest : List ℕ)
    (d : RecDict) (hg : get_item_recommendations u 6 uim sim = .ok d) :
    recDfs uim sim (u :: rest) = explodeDict d :: recDfs uim sim rest := by
  have e : recDfs uim sim (u :: rest) =
      match get_item_recommendations u 6 uim sim with
      | .ok d => explodeDict d :: recDfs uim sim rest
      | .error _ => [] := rfl
  rw [e, hg]

lemma recDfs_cons_error (uim : ProcMatrix) (sim : SimMatrix ℚ) (u : ℕ) (rest : List ℕ)
    (e0 : RecError) (hg : get_item_recommendations u 6 uim sim = .error e0) :
    recDfs uim sim (u :: rest) = [] := by
  have e : recDfs uim sim (u :: rest) =
      match get_item_recommendations u 6 uim sim with
      | .ok d => explodeDict d :: recDfs uim sim rest
      | .error _ => [] := rfl
  rw [e, hg]

lemma mem_flatten_recDfs (uim : ProcMatrix) (sim : SimMatrix ℚ) :
    ∀ (l : List ℕ) (row : RecRow),
      row ∈ (recDfs uim sim l).flatten → row.user_id ∈ l := by
  intro l
  induction l with
  | nil => intro row h; exact absurd h (by simp [recDfs])
  | cons u rest ih =>
    intro row h
    cases hg : get_item_recommendations u 6 uim sim with
    | error e0 =>
      rw [recDfs_cons_error uim sim u rest e0 hg] at h
      exact absurd h (by simp)
    | ok d =>
      rw [recDfs_cons_ok uim sim u rest d hg, List.flatten_cons] at h
      rcases List.mem_append.mp h with h' | h'
      · have h1 := mem_explodeDict d row h'
        have h2 := (get_item_recommendations_ok _ _ _ _ _ hg).2.1
        simp [h1, h2]
      · simp [ih row h']

lemma recDfs_filter_user (uim : ProcMatrix) (sim : SimMatrix ℚ) (u : ℕ) :
    ∀ l : List ℕ, l.Nodup →
      (((recDfs uim sim l).flatten).filter (fun row => row.user_id = u)).length ≤ 6 := by
  intro l
  induction l with
  | nil => intro _; simp [recDfs]
  | cons v rest ih =>
    intro hnd
    obtain ⟨hv, hndr⟩ := List.nodup_cons.mp hnd
    cases hg : get_item_recommendations v 6 uim sim with
    | error e0 =>
      rw [recDfs_cons_error uim sim v rest e0 hg]
      simp
    | ok d =>
      rw [recDfs_cons_ok uim sim v rest d hg, List.flatten_cons, List.filter_append,
        List.length_append]
      have hdu : d.user_id = v := (get_item_recommendations_ok _ _ _ _ _ hg).2.1
      by_cases hvu : v = u
      · subst hvu
        have hlen : d.product_id.length ≤ 6 := get_ok_product_length _ _ _ _ _ hg
        have h1 : ((explodeDict d).filter (fun row => decide (row.user_id = v))).length ≤ 6 :=
          le_trans (List.length_filter_le _ _) (explodeDict_length_le d 6 hlen (by omega))
        have h2 : (((recDfs uim sim rest).flatten).filter
            (fun row => decide (row.user_id = v))).length = 0 := by
          rw [List.length_eq_zero, List.filter_eq_nil_iff]
          intro row hrow
          simp only [decide_eq_true_eq]
          intro hru
          exact hv (hru ▸ mem_flatten_recDfs uim sim rest row hrow)
        omega
      · have h1 : ((explodeDict d).filter (fun row => decide (row.user_id = u))).length = 0 := by
          rw [List.length_eq_zero, List.filter_eq_nil_iff]
          intro row hrow
          simp only [decide_eq_true_eq]
          intro hru
          exact hvu (by rw [← hdu, ← mem_explodeDict d row hrow, hru])
        have h2 := ih hndr
        omega

lemma generate_final_recommendation_df_ok (uim : ProcMatrix) (sim : SimMatrix ℚ)
    (rows : List RecRow) (h : generate_final_recommendation_df uim sim = .ok rows) :
    rows = (recDfs uim sim uim.users).flatten := by
  unfold generate_final_recommendation_df concatOrError at h
  split_ifs at h with he
  exact (Except.ok.inj h).symm

lemma recDfs_break (uim : ProcMatrix) (sim : SimMatrix ℚ) (u : ℕ) (e : RecError)
    (post : List ℕ) (hfail : get_item_recommendations u 6 uim sim = .error e) :
    ∀ pre : List ℕ, recDfs uim sim (pre ++ u :: post) = recDfs uim sim (pre ++ [u]) := by
  intro pre
  induction pre with
  | nil =>
    simp only [List.nil_append]
    rw [recDfs_cons_error _ _ _ _ _ hfail, recDfs_cons_error _ _ _ _ _ hfail]
  | cons v pre ih =>
    simp only [List.cons_append]
    cases hg : get_item_recommendations v 6 uim sim with
    | error e0 =>
      rw [recDfs_cons_error _ _ _ _ _ hg, recDfs_cons_error _ _ _ _ _ hg]
    | ok d =>
      rw [recDfs_cons_ok _ _ _ _ _ hg, recDfs_cons_ok _ _ _ _ _ hg, ih]

/-! ## Claims about the pairwise ranker -/

/-- C1: no self-recommendation.  Pairwise path: every product id emitted by
`get_item_recommendations` comes from a seed-item `idxmax` lookup whose
series excludes the seed, so it differs from that seed.  Itemset path: every
row of the final melted dataframe has
`recommended_product_id ≠ product_id`. -/
theorem C1_no_self_recommendation :
    (∀ (picked_userid N : ℕ) (uim : ProcMatrix) (sim : SimMatrix ℚ) (d : RecDict),
      get_item_recommendations picked_userid N uim sim = .ok d →
      ∀ rid ∈ d.product_id, ∃ s ∈ seedsFor picked_userid N uim,
        idxmaxE (seriesFor sim s) = .ok rid ∧ rid ≠ s) ∧
    (∀ (processed_results : List IsRow) (run_ids : List ℕ) (out : List (ℕ × ℕ)),
      generate_final_dataframe processed_results run_ids = some out →
      ∀ p ∈ out, p.2 ≠ p.1) := by
  constructor
  · intro u N uim sim d h rid hrid
    obtain ⟨-, -, m, hm, hd⟩ := get_item_recommendations_ok _ _ _ _ _ h
    rw [hd] at hrid
    unfold recItemsMap at hm
    rcases recFold_keys_origin sim (seedsFor u N uim) [] m hm rid hrid with h' | ⟨s, hs, hx⟩
    · exact absurd h' (by simp)
    · exact ⟨s, hs, hx, (idxmaxE_seriesFor sim s rid hx).1⟩
  · intro pr run_ids out hout p hp
    obtain ⟨s, hrec, hmem⟩ := mem_generate_final_dataframe _ _ _ hout p hp
    obtain ⟨hid, hs⟩ := recsFor_eq_some _ _ _ hrec
    rw [hs] at hmem
    exact ((List.Nodup.mem_erase_iff (nodup_unionTop pr p.1)).mp hmem).1

/-- C1 witness: a concrete pairwise run and a concrete itemset run. -/
theorem C1_no_self_recommendation_witness :
    (get_item_recommendations 10 6 uimW7 simW7 = .ok ⟨10, 1, [2, 1]⟩ ∧
      ∃ s ∈ seedsFor 10 6 uimW7, idxmaxE (seriesFor simW7 s) = .ok 2 ∧ (2 : ℕ) ≠ s) ∧
    (generate_final_dataframe prW10 [1, 2, 3] =
      some [(1, 2), (1, 3), (2, 1), (2, 3), (3, 1), (3, 2)] ∧
      ∀ p ∈ ([(1, 2), (1, 3), (2, 1), (2, 3), (3, 1), (3, 2)] : List (ℕ × ℕ)),
        p.2 ≠ p.1) :=
  ⟨⟨by decide,
    C1_no_self_recommendation.1 10 6 uimW7 simW7 ⟨10, 1, [2, 1]⟩ (by decide) 2 (by decide)⟩,
   ⟨by decide,
    C1_no_self_recommendation.2 prW10 [1, 2, 3] _ (by decide)⟩⟩

/-- C7: per-user boundedness of the pairwise path.  `get_item_recommendations`
returns at most `number_of_recommendations` product ids (at most N seeds, one
dict entry per seed), and the batch dataframe contains at most 6 rows per
user (the hardcoded `NUM_RECOMMENDATIONS = 6`). -/
theorem C7_topn_bound :
    (∀ (picked_userid N : ℕ) (uim : ProcMatrix) (sim : SimMatrix ℚ) (d : RecDict),
      get_item_recommendations picked_userid N uim sim = .ok d →
      d.product_id.length ≤ N) ∧
    (∀ (uim : ProcMatrix) (sim : SimMatrix ℚ) (rows : List RecRow) (u : ℕ),
      uim.users.Nodup →
      generate_final_recommendation_df uim sim = .ok rows →
      (rows.filter (fun row => row.user_id = u)).length ≤ 6) := by
  constructor
  · exact get_ok_product_length
  · intro uim sim rows u hnd hok
    rw [generate_final_recommendation_df_ok uim sim rows hok]
    exact recDfs_filter_user uim sim u uim.users hnd

/-- C7 witness: a user with two seed items receives 2 ≤ 6 recommendations,
and the batch dataframe has 2 ≤ 6 rows for that user. -/
theorem C7_topn_bound_witness :
    (get_item_recommendations 10 6 uimW7 simW7 = .ok ⟨10, 1, [2, 1]⟩ ∧
      (RecDict.mk 10 1 [2, 1]).product_id.length ≤ 6) ∧
    (generate_final_recommendation_df uimW7 simW7 =
        .ok [⟨10, 1, some 2⟩, ⟨10, 1, some 1⟩] ∧
      (([⟨10, 1, some 2⟩, ⟨10, 1, some 1⟩] : List RecRow).filter
        (fun row => row.user_id = 10)).length ≤ 6) :=
  ⟨⟨by decide, C7_topn_bound.1 10 6 uimW7 simW7 ⟨10, 1, [2, 1]⟩ (by decide)⟩,
   ⟨by decide, C7_topn_bound.2 uimW7 simW7 [⟨10, 1, some 2⟩, ⟨10, 1, some 1⟩] 10
      (by decide) (by decide)⟩⟩

/-- C5: last-write-wins overwrite in the pairwise ranker.  When two distinct
seeds `si` (earlier) and `sj` (later) of the same user both resolve to the
same recommended id `r`, and no later seed resolves to `r`, the `rec_items`
mapping holds exactly the score computed for `sj` (not an average, max, or
the earlier score), and the user's final product list contains `r` once. -/
theorem C5_last_write_wins (picked_userid N : ℕ) (uim : ProcMatrix) (sim : SimMatrix ℚ)
    (si sj r : ℕ) (l1 l2 l3 : List ℕ) (m : List (ℕ × ℚ))
    (hseeds : seedsFor picked_userid N uim = l1 ++ si :: (l2 ++ sj :: l3))
    (hne : si ≠ sj)
    (hi : idxmaxE (seriesFor sim si) = .ok r)
    (hj : idxmaxE (seriesFor sim sj) = .ok r)
    (hlater : ∀ s ∈ l3, ¬ idxmaxE (seriesFor sim s) = .ok r)
    (hm : recItemsMap picked_userid N uim sim = .ok m) :
    lookupQ m r = some (roundTo5 (sim.entry sj r)) ∧
    ∀ d, get_item_recommendations picked_userid N uim sim = .ok d →
      d.product_id.count r = 1 := by
  unfold recItemsMap at hm
  have hlook := recFold_lookup sim r (seedsFor picked_userid N uim) [] m hm
  have hfil : (seedsFor picked_userid N uim).filter
      (fun s => decide (idxmaxE (seriesFor sim s) = .ok r)) =
      (l1.filter (fun s => decide (idxmaxE (seriesFor sim s) = .ok r)) ++
        si :: l2.filter (fun s => decide (idxmaxE (seriesFor sim s) = .ok r))) ++ [sj] := by
    have hPl3 : l3.filter (fun s => decide (idxmaxE (seriesFor sim s) = .ok r)) = [] := by
      rw [List.filter_eq_nil_iff]
      intro s hs
      simpa using hlater s hs
    rw [hseeds]
    rw [List.filter_append, List.filter_cons, if_pos (by simp [hi]),
      List.filter_append, List.filter_cons, if_pos (by simp [hj]), hPl3]
    simp
  rw [hfil, List.getLast?_concat] at hlook
  have hlook' : lookupQ m r = some (roundTo5 (sim.entry sj r)) := hlook
  refine ⟨hlook', ?_⟩
  intro d hd
  obtain ⟨-, -, m', hm', hd'⟩ := get_item_recommendations_ok _ _ _ _ _ hd
  unfold recItemsMap at hm'
  rw [hm] at hm'
  have hmm : m = m' := Except.ok.inj hm'
  subst hmm
  have hnd := recFold_keys_nodup sim _ [] m hm (by simp)
  have hrmem : r ∈ m.map Prod.fst :=
    lookupQ_mem_keys m r (roundTo5 (sim.entry sj r)) hlook'
  rw [hd']
  exact List.count_eq_one_of_mem hnd hrmem

/-- C5 witness: seeds 1 and 2 of user 10 both resolve to item 4 with scores
0.9 and 0.8 respectively; the mapping holds 0.8 (the later seed's score) and
the final list contains item 4 once. -/
theorem C5_last_write_wins_witness :
    (recItemsMap 10 6 uimW5 simW5 =
        .ok [(4, roundTo5 (mkRat 8 10)), (1, roundTo5 (mkRat 7 10))] ∧
      lookupQ [(4, roundTo5 (mkRat 8 10)), (1, roundTo5 (mkRat 7 10))] 4 =
        some (roundTo5 (simW5.entry 2 4))) ∧
    (get_item_recommendations 10 6 uimW5 simW5 = .ok ⟨10, 1, [4, 1]⟩ ∧
      (RecDict.mk 10 1 [4, 1]).product_id.count 4 = 1) :=
  have h := C5_last_write_wins 10 6 uimW5 simW5 1 2 4 [] [] [3]
    [(4, roundTo5 (mkRat 8 10)), (1, roundTo5 (mkRat 7 10))]
    (by decide) (by decide) (by decide) (by decide) (by decide) (by decide)
  ⟨⟨by decide, h.1⟩,
   ⟨by decide, h.2 ⟨10, 1, [4, 1]⟩ (by decide)⟩⟩

/-- C3: the batch loop aborts on the first per-user exception.  If the user
`u` fails and the matrix's column order is `pre ++ u :: post`, the final
dataframe equals the one computed from `pre ++ [u]` alone: no user after
`u` is processed. -/
theorem C3_abort_batch (uim : ProcMatrix) (sim : SimMatrix ℚ) (pre post : List ℕ)
    (u : ℕ) (e : RecError)
    (hfail : get_item_recommendations u 6 uim sim = .error e)
    (husers : uim.users = pre ++ u :: post) :
    generate_final_recommendation_df uim sim =
      concatOrError (recDfs uim sim (pre ++ [u])) := by
  unfold generate_final_recommendation_df
  rw [husers, recDfs_break uim sim u e post hfail pre]

/-- C3 witness: user 10's only seed has an empty similarity series, so
`idxmax` raises; user 11 (after 10 in column order) is never processed. -/
theorem C3_abort_batch_witness :
    get_item_recommendations 10 6 uimW3 simW3 = .error .EmptySeries ∧
    uimW3.users = [] ++ 10 :: [11] ∧
    generate_final_recommendation_df uimW3 simW3 =
      concatOrError (recDfs uimW3 simW3 ([] ++ [10])) :=
  ⟨by decide, by decide,
   C3_abort_batch uimW3 simW3 [] [11] 10 .EmptySeries (by decide) (by decide)⟩

/-! ## Claims about preprocessing and the similarity generator -/

/-- C6: the sparsity rule of `preprocess_user_item_matrix`.  An item row of
the raw matrix is dropped exactly when the number of its present (non-null)
cells with value at most 1 is at most 2; null cells are not counted. -/
theorem C6_sparsity_rule (matrix : RawMatrix) (r : ℕ × List (Option ℚ))
    (hnd : (matrix.rows.map Prod.fst).Nodup) (hr : r ∈ matrix.rows) :
    (¬ r.1 ∈ (preprocess_user_item_matrix matrix).rows.map Prod.fst) ↔
      countLE1 r.2 ≤ 2 := by
  have hfst : (preprocess_user_item_matrix matrix).rows.map Prod.fst =
      (matrix.rows.filter (fun r => decide (¬ countLE1 r.2 ≤ 2))).map Prod.fst := by
    unfold preprocess_user_item_matrix
    rw [List.map_map]
    rfl
  rw [hfst]
  constructor
  · intro hnotin
    by_contra hgt
    apply hnotin
    apply List.mem_map_of_mem Prod.fst
    exact List.mem_filter.mpr ⟨hr, by simpa using hgt⟩
  · intro hle hmem
    rcases List.mem_map.mp hmem with ⟨r', hr', hfst'⟩
    have hr'mem := (List.mem_filter.mp hr').1
    have hcond := (List.mem_filter.mp hr').2
    have hrr : r' = r := List.inj_on_of_nodup_map hnd hr'mem hr hfst'
    rw [hrr] at hcond
    simp only [decide_eq_true_eq] at hcond
    exact hcond hle

/-- C6 witness: item 2 of `rawW6` has exactly two cells at most 1 (its two
null cells are not counted), so it is dropped. -/
theorem C6_sparsity_rule_witness :
    ((rawW6.rows.map Prod.fst).Nodup ∧
      ((2 : ℕ), [some 1, some 1, none, none]) ∈ rawW6.rows) ∧
    ((¬ (2 : ℕ) ∈ (preprocess_user_item_matrix rawW6).rows.map Prod.fst) ↔
      countLE1 [some 1, some 1, none, none] ≤ 2) :=
  ⟨⟨by decide, by decide⟩,
   C6_sparsity_rule rawW6 (2, [some 1, some 1, none, none]) (by decide) (by decide)⟩

/-- C2: metric validation.  For any metric name outside {"cosine",
"jaccard"} the generator fails (no branch assigns the similarity array, so no
similarity is computed and the unbound local aborts the call — the spec's
`UnsupportedSimilarityMetric`); for the two supported names it returns a
similarity matrix. -/
theorem C2_metric_validation (normalized_matrix : ProcMatrix) (type : String) :
    (type ≠ "cosine" → type ≠ "jaccard" →
      generate_item_similarity_matrix normalized_matrix type =
        .error .UnsupportedSimilarityMetric) ∧
    ((type = "cosine" ∨ type = "jaccard") →
      ∃ M, generate_item_similarity_matrix normalized_matrix type = .ok M) := by
  constructor
  · intro h1 h2
    unfold generate_item_similarity_matrix
    rw [if_neg h1, if_neg h2]
  · rintro (rfl | rfl)
    · refine ⟨⟨normalized_matrix.rows.map Prod.fst,
        fun a b => cosineEntry (rowOf normalized_matrix a) (rowOf normalized_matrix b)⟩, ?_⟩
      unfold generate_item_similarity_matrix
      rw [if_pos rfl]
    · refine ⟨⟨normalized_matrix.rows.map Prod.fst,
        fun a b => ((jaccardEntry (rowOf normalized_matrix a)
          (rowOf normalized_matrix b) : ℚ) : ℝ)⟩, ?_⟩
      unfold generate_item_similarity_matrix
      rw [if_neg (by decide), if_pos rfl]

/-- C2 witness: the unsupported metric "euclidean" fails, "jaccard"
succeeds. -/
theorem C2_metric_validation_witness :
    generate_item_similarity_matrix mW9 "euclidean" =
      .error .UnsupportedSimilarityMetric ∧
    ∃ M, generate_item_similarity_matrix mW9 "jaccard" = .ok M :=
  ⟨(C2_metric_validation mW9 "euclidean").1 (by decide) (by decide),
   (C2_metric_validation mW9 "jaccard").2 (Or.inr rfl)⟩

lemma dotQ_comm (x y : List ℚ) : dotQ x y = dotQ y x := by
  induction x generalizing y with
  | nil => cases y <;> rfl
  | cons a x ih =>
    cases y with
    | nil => rfl
    | cons b y =>
      unfold dotQ at ih ⊢
      simp only [List.zipWith_cons_cons, List.sum_cons]
      rw [mul_comm, ih y]

lemma diffCount_cons (a b : Bool) (u v : List Bool) :
    diffCount (a :: u) (b :: v) = (if a != b then 1 else 0) + diffCount u v := by
  unfold diffCount
  simp only [List.zip_cons_cons, List.filter_cons]
  by_cases h : (a != b) = true
  · simp [h, Nat.add_comm]
  · simp [h]

lemma totCount_cons (a b : Bool) (u v : List Bool) :
    totCount (a :: u) (b :: v) = (if a || b then 1 else 0) + totCount u v := by
  unfold totCount
  simp only [List.zip_cons_cons, List.filter_cons]
  by_cases h : (a || b) = true
  · simp [h, Nat.add_comm]
  · simp [h]

lemma diffCount_comm (u v : List Bool) : diffCount u v = diffCount v u := by
  induction u generalizing v with
  | nil => cases v <;> rfl
  | cons a u ih =>
    cases v with
    | nil => rfl
    | cons b v =>
      rw [diffCount_cons, diffCount_cons, ih v]
      have hab : (a != b) = (b != a) := by cases a <;> cases b <;> rfl
      rw [hab]

lemma totCount_comm (u v : List Bool) : totCount u v = totCount v u := by
  induction u generalizing v with
  | nil => cases v <;> rfl
  | cons a u ih =>
    cases v with
    | nil => rfl
    | cons b v =>
      rw [totCount_cons, totCount_cons, ih v, Bool.or_comm]

lemma jaccardDist_comm (x y : List ℚ) : jaccardDist x y = jaccardDist y x := by
  unfold jaccardDist
  rw [diffCount_comm, totCount_comm]

lemma jaccardEntry_comm (x y : List ℚ) : jaccardEntry x y = jaccardEntry y x := by
  unfold jaccardEntry
  rw [jaccardDist_comm]

lemma cosineEntry_comm (x y : List ℚ) : cosineEntry x y = cosineEntry y x := by
  unfold cosineEntry
  rw [dotQ_comm x y, mul_comm]

/-- C9: every similarity matrix produced by the generator is symmetric, for
both supported metrics: the score of (a, b) equals the score of (b, a) for
all items of the processed matrix. -/
theorem C9_symmetry (normalized_matrix : ProcMatrix) (type : String) (M : SimMatrix ℝ)
    (hok : generate_item_similarity_matrix normalized_matrix type = .ok M)
    (a b : ℕ) (ha : a ∈ M.items) (hb : b ∈ M.items) :
    M.entry a b = M.entry b a := by
  unfold generate_item_similarity_matrix at hok
  split_ifs at hok with h1 h2
  · have hM := Except.ok.inj hok
    rw [← hM]
    exact cosineEntry_comm _ _
  · have hM := Except.ok.inj hok
    rw [← hM]
    show ((jaccardEntry (rowOf normalized_matrix a) (rowOf normalized_matrix b) : ℚ) : ℝ) =
      ((jaccardEntry (rowOf normalized_matrix b) (rowOf normalized_matrix a) : ℚ) : ℝ)
    rw [jaccardEntry_comm]

/-- C9 witness: the jaccard matrix for `mW9` is symmetric at items 1 and 2. -/
theorem C9_symmetry_witness :
    generate_item_similarity_matrix mW9 "jaccard" = .ok simMW9 ∧
    simMW9.entry 1 2 = simMW9.entry 2 1 :=
  have hok : generate_item_similarity_matrix mW9 "jaccard" = .ok simMW9 := by
    unfold generate_item_similarity_matrix simMW9
    rw [if_neg (by decide), if_pos rfl]
    rfl
  ⟨hok, C9_symmetry mW9 "jaccard" simMW9 hok 1 2 (by decide) (by decide)⟩

end RecEngine
